import Mathlib

/-!
Verification of the color-engine core of the Color Design Studio
application (`app.py`): the `Color` value type (hex/RGB construction,
HSV/HSL derivation, lighten/darken/saturate/desaturate, WCAG contrast,
accessibility thresholds), the `PaletteGenerator` (palette rules and the
harmony score) and the `GradientGenerator` (linear ramps and radial
grids).

Modelling conventions:
* Python floats are modelled as exact rational numbers (`ℚ`); Python ints
  as `ℤ` (or `ℕ` where the source value is a length or size).
* Fallible Python code is modelled in the `Py` monad (`Except PyError`):
  `ZeroDivisionError`, `TypeError`, `AttributeError`, `KeyError`,
  `IndexError` and `ValueError` become values of `PyError`.
* Rational arithmetic inside executable definitions is spelled through
  the wrappers `qAdd`, `qSub`, `qMul`, `qDiv`, `qNeg` (built on
  `Rat.divInt`, which the kernel can evaluate; the library's own
  `Rat.add` etc. are irreducible).  The lemmas `qAdd_eq` … identify the
  wrappers with the field operations of `ℚ`, so proofs may freely move
  between the two spellings.
-/

/-- The Python exception kinds raised (or raisable) by the modelled code. -/
inductive PyError
  | zeroDivision
  | typeError
  | attributeError
  | keyError
  | indexError
  | valueError
deriving DecidableEq

/-- Result of running a piece of Python code: a value or a raised exception. -/
abbrev Py (α : Type) := Except PyError α

instance {α : Type} [DecidableEq α] : DecidableEq (Py α) := fun x y =>
  match x, y with
  | .ok a, .ok b => if h : a = b then .isTrue (by rw [h]) else .isFalse (by simp [h])
  | .error a, .error b => if h : a = b then .isTrue (by rw [h]) else .isFalse (by simp [h])
  | .ok _, .error _ => .isFalse (by simp)
  | .error _, .ok _ => .isFalse (by simp)

/-- Executable addition on `ℚ` (see the module comment). -/
def qAdd (a b : ℚ) : ℚ := Rat.divInt (a.num * b.den + b.num * a.den) (a.den * b.den)

/-- Executable negation on `ℚ`. -/
def qNeg (a : ℚ) : ℚ := Rat.divInt (-a.num) a.den

/-- Executable subtraction on `ℚ`. -/
def qSub (a b : ℚ) : ℚ := qAdd a (qNeg b)

/-- Executable multiplication on `ℚ`. -/
def qMul (a b : ℚ) : ℚ := Rat.divInt (a.num * b.num) (a.den * b.den)

/-- Executable division on `ℚ` (like the field division, `qDiv a 0 = 0`;
Python's raising division-by-zero is modelled separately by `pyDiv`). -/
def qDiv (a b : ℚ) : ℚ := Rat.divInt (a.num * b.den) (a.den * b.num)

/-- Python `float` division: raises `ZeroDivisionError` on a zero divisor. -/
def pyDiv (a b : ℚ) : Py ℚ := if b = 0 then .error .zeroDivision else .ok (qDiv a b)

/-- Python `int(x)` on a float value: truncation toward zero. -/
def pyInt (q : ℚ) : ℤ :=
  if 0 ≤ q then ((q.num.toNat / q.den : ℕ) : ℤ) else -(((-q.num).toNat / q.den : ℕ) : ℤ)

/-- Python `x % 1.0` for a float `x`: `x` minus its floor, always in `[0,1)`. -/
def pyMod1 (q : ℚ) : ℚ := qSub q ((q.num.fdiv (q.den : ℤ) : ℤ) : ℚ)

/-- Python slice `l[:n]` for an `int` bound `n` (negative bounds count from
the end, out-of-range bounds are clamped). -/
def pySliceTo {α : Type} (l : List α) (n : ℤ) : List α :=
  if 0 ≤ n then l.take n.toNat else l.take ((l.length + n).toNat)

/-- Integer square root (the value of Python `int(math.sqrt n)` for the exact
real square root): the number of `j < n` with `(j+1)^2 ≤ n`. -/
def isqrtNat (n : ℕ) : ℕ := (List.range n).countP (fun j => decide ((j + 1) * (j + 1) ≤ n))

/-- Sequential effectful map, as a Python `for … append` loop over a list. -/
def pyMapM {α β : Type} (f : α → Py β) : List α → Py (List β)
  | [] => .ok []
  | a :: l => do
      let b ← f a
      let bs ← pyMapM f l
      .ok (b :: bs)

/-! ## The `Color` data model (`app.py`, `RGB` / `HSV` / `HSL` / `Color`) -/

/-- `RGB` dataclass: integer channels with a float alpha. -/
structure RGB where
  r : ℤ
  g : ℤ
  b : ℤ
  a : ℚ
deriving DecidableEq

/-- `RGB.__post_init__`: channels are clamped to `[0, 255]`, alpha to `[0, 1]`.
Every `RGB` built by the modelled code goes through this constructor. -/
def RGB.make (r g b : ℤ) (a : ℚ) : RGB :=
  ⟨max 0 (min 255 r), max 0 (min 255 g), max 0 (min 255 b), max 0 (min 1 a)⟩

/-- The lowercase hex digit for `n < 16` (as produced by Python's `x` format). -/
def hexDigitChar (n : ℕ) : Char := if n < 10 then Char.ofNat (48 + n) else Char.ofNat (87 + n)

/-- Python `f"{n:02x}"` for a clamped channel value `0 ≤ n ≤ 255`:
exactly two lowercase hex digits. -/
def hexByte (n : ℤ) : String := String.mk [hexDigitChar (n.toNat / 16), hexDigitChar (n.toNat % 16)]

/-- `RGB.to_hex`: `f"#{r:02x}{g:02x}{b:02x}"` (alpha is not serialized). -/
def RGB.to_hex (c : RGB) : String := "#" ++ hexByte c.r ++ hexByte c.g ++ hexByte c.b

/-- `HSV` dataclass. -/
structure HSV where
  h : ℚ
  s : ℚ
  v : ℚ
deriving DecidableEq

/-- `HSL` dataclass. -/
structure HSL where
  h : ℚ
  s : ℚ
  l : ℚ
deriving DecidableEq

/-- `Color` dataclass: the three representations plus a display name and tags.
`Color` has *no* `to_hex` method in the source; only `RGB` does. -/
structure Color where
  rgb : RGB
  hsv : HSV
  hsl : HSL
  name : String
  tags : List String
deriving DecidableEq

/-- Python `abs` on floats. -/
def qAbs (q : ℚ) : ℚ := if q < 0 then qNeg q else q

/-- `colorsys.rgb_to_hsv` (exact rational model).  The only division that can
raise in Python is `s = (maxc-minc)/maxc` (reached with `maxc = 0` only when
some argument is negative); the `rc`/`gc`/`bc` divisors equal `maxc - minc`,
which is nonzero past the early return, so they are modelled with total
division `qDiv`. -/
def rgb_to_hsv (r g b : ℚ) : Py (ℚ × ℚ × ℚ) :=
  let maxc := max r (max g b)
  let minc := min r (min g b)
  let v := maxc
  if minc = maxc then .ok (0, 0, v)
  else do
    let s ← pyDiv (qSub maxc minc) maxc
    let rc := qDiv (qSub maxc r) (qSub maxc minc)
    let gc := qDiv (qSub maxc g) (qSub maxc minc)
    let bc := qDiv (qSub maxc b) (qSub maxc minc)
    let h := if r = maxc then qSub bc gc
             else if g = maxc then qAdd 2 (qSub rc bc)
             else qAdd 4 (qSub gc rc)
    .ok (pyMod1 (qDiv h 6), s, v)

/-- `colorsys._v`, the hue-sector interpolation helper of `hls_to_rgb`. -/
def colorsysV (m1 m2 hue : ℚ) : ℚ :=
  let hue := pyMod1 hue
  if hue < mkRat 1 6 then qAdd m1 (qMul (qMul (qSub m2 m1) hue) 6)
  else if hue < mkRat 1 2 then m2
  else if hue < mkRat 2 3 then qAdd m1 (qMul (qMul (qSub m2 m1) (qSub (mkRat 2 3) hue)) 6)
  else m1

/-- `colorsys.hls_to_rgb` (exact rational model; total, no division). -/
def hls_to_rgb (h l s : ℚ) : ℚ × ℚ × ℚ :=
  if s = 0 then (l, l, l)
  else
    let m2 := if l ≤ mkRat 1 2 then qMul l (qAdd 1 s) else qSub (qAdd l s) (qMul l s)
    let m1 := qSub (qMul 2 l) m2
    (colorsysV m1 m2 (qAdd h (mkRat 1 3)), colorsysV m1 m2 h, colorsysV m1 m2 (qSub h (mkRat 1 3)))

/-- `Color.from_rgb`: builds the clamped `RGB` and derives HSV and HSL.
Note the source divides the *unclamped* arguments by 255 when calling
`colorsys.rgb_to_hsv`, and guards `s_hsl` by `l in (0, 1)`, i.e. tuple
membership: `l == 0 or l == 1`. -/
def Color.from_rgb (r g b : ℤ) (name : String) (a : ℚ) : Py Color := do
  let rgb := RGB.make r g b a
  let hsv3 ← rgb_to_hsv (qDiv ((r : ℚ)) 255) (qDiv ((g : ℚ)) 255) (qDiv ((b : ℚ)) 255)
  let h := hsv3.1
  let s := hsv3.2.1
  let v := hsv3.2.2
  let h_deg := qMul h 360
  let l := qDiv (qMul (qSub 2 s) v) 2
  let s_hsl := if l = 0 ∨ l = 1 then 0
               else qDiv (qMul s v) (qSub 1 (qAbs (qSub (qMul 2 l) 1)))
  .ok ⟨rgb, ⟨h_deg, s, v⟩, ⟨h_deg, s_hsl, l⟩, name, []⟩

/-- The digit value accepted by Python `int(two_chars, 16)` for one character
(hex digits in either case; `int(…, 16)` is in fact slightly more lenient —
signs and underscores — but those strings are outside every claim's domain of
valid hex strings). -/
def hexDigitVal (c : Char) : Py ℕ :=
  if 48 ≤ c.toNat ∧ c.toNat ≤ 57 then .ok (c.toNat - 48)
  else if 97 ≤ c.toNat ∧ c.toNat ≤ 102 then .ok (c.toNat - 87)
  else if 65 ≤ c.toNat ∧ c.toNat ≤ 70 then .ok (c.toNat - 55)
  else .error .valueError

/-- `int(hex_str[i:i+2], 16)` on a two-character slice. -/
def parseHexPair (c1 c2 : Char) : Py ℕ := do
  let hi ← hexDigitVal c1
  let lo ← hexDigitVal c2
  .ok (16 * hi + lo)

/-- `Color.from_hex`: strips leading `#`, accepts 6 digits (`RRGGBB`) or
8 digits (`RRGGBBAA`, alpha scaled by 255), raises `ValueError` otherwise. -/
def Color.from_hex (s : String) (name : String) : Py Color :=
  match s.toList.dropWhile (fun c => c == '#') with
  | [c1, c2, c3, c4, c5, c6] => do
      let r ← parseHexPair c1 c2
      let g ← parseHexPair c3 c4
      let b ← parseHexPair c5 c6
      Color.from_rgb r g b name 1
  | [c1, c2, c3, c4, c5, c6, c7, c8] => do
      let r ← parseHexPair c1 c2
      let g ← parseHexPair c3 c4
      let b ← parseHexPair c5 c6
      let a ← parseHexPair c7 c8
      Color.from_rgb r g b name (qDiv ((a : ℚ)) 255)
  | _ => .error .valueError

/-- `Color._from_hsl` (body of the instance method: convert the HSL triple
through `colorsys.hls_to_rgb` and rebuild with `from_rgb`, truncating each
channel with `int(x*255)`). -/
def Color._from_hsl (self : Color) (h s l : ℚ) : Py Color :=
  let rgb3 := hls_to_rgb (qDiv h 360) l s
  Color.from_rgb (pyInt (qMul rgb3.1 255)) (pyInt (qMul rgb3.2.1 255))
    (pyInt (qMul rgb3.2.2 255)) "" 1

/-- `Color.lighten`: `l = min(1.0, l + amount)` — only the upper bound is
clamped — then rebuild from the adjusted HSL triple. -/
def Color.lighten (c : Color) (amount : ℚ) : Py Color :=
  Color._from_hsl c c.hsl.h c.hsl.s (min 1 (qAdd c.hsl.l amount))

/-- `Color.darken`: `self.lighten(-amount)`. -/
def Color.darken (c : Color) (amount : ℚ) : Py Color := Color.lighten c (qNeg amount)

/-- `Color.saturate`: `s = min(1.0, s + amount)`, then rebuild. -/
def Color.saturate (c : Color) (amount : ℚ) : Py Color :=
  Color._from_hsl c c.hsl.h (min 1 (qAdd c.hsl.s amount)) c.hsl.l

/-- `Color.desaturate`: `self.saturate(-amount)`. -/
def Color.desaturate (c : Color) (amount : ℚ) : Py Color := Color.saturate c (qNeg amount)

/-- `relative_luminance` as the source actually computes it.  The source's
linearization loop writes each linearized channel into the *fresh list
literal* `[r, g, b][i]` — a no-op that never rebinds `r`, `g`, `b` — so the
returned value is the weighted sum of the raw normalized channels, without
gamma linearization. -/
def relative_luminance (c : RGB) : ℚ :=
  let r := qDiv ((c.r : ℚ)) 255
  let g := qDiv ((c.g : ℚ)) 255
  let b := qDiv ((c.b : ℚ)) 255
  qAdd (qAdd (qMul (mkRat 2126 10000) r) (qMul (mkRat 7152 10000) g)) (qMul (mkRat 722 10000) b)

/-- `Color.contrast_ratio`: `(max(l1,l2)+0.05)/(min(l1,l2)+0.05)`. -/
def Color.contrast_ratio (c other : Color) : ℚ :=
  let l1 := relative_luminance c.rgb
  let l2 := relative_luminance other.rgb
  qDiv (qAdd (max l1 l2) (mkRat 5 100)) (qAdd (min l1 l2) (mkRat 5 100))

/-- `WCAG_AA_NORMAL = 4.5`. -/
def WCAG_AA_NORMAL : ℚ := mkRat 45 10

/-- `WCAG_AA_LARGE = 3.0`. -/
def WCAG_AA_LARGE : ℚ := 3

/-- `WCAG_AAA_NORMAL = 7.0`. -/
def WCAG_AAA_NORMAL : ℚ := 7

/-- `WCAG_AAA_LARGE = 4.5`. -/
def WCAG_AAA_LARGE : ℚ := mkRat 45 10

/-- ASCII `str.upper` on one character (the modelled level/size strings are
ASCII). -/
def asciiUpperChar (c : Char) : Char :=
  if 97 ≤ c.toNat ∧ c.toNat ≤ 122 then Char.ofNat (c.toNat - 32) else c

/-- ASCII `str.lower` on one character. -/
def asciiLowerChar (c : Char) : Char :=
  if 65 ≤ c.toNat ∧ c.toNat ≤ 90 then Char.ofNat (c.toNat + 32) else c

/-- `str.upper` (ASCII model). -/
def strUpper (s : String) : String := String.mk (s.toList.map asciiUpperChar)

/-- `str.lower` (ASCII model). -/
def strLower (s : String) : String := String.mk (s.toList.map asciiLowerChar)

/-- The threshold dict literal of `Color.is_accessible_with`. -/
def wcagTable : List ((String × String) × ℚ) :=
  [(("AA", "normal"), WCAG_AA_NORMAL),
   (("AA", "large"), WCAG_AA_LARGE),
   (("AAA", "normal"), WCAG_AAA_NORMAL),
   (("AAA", "large"), WCAG_AAA_LARGE)]

/-- Python dict subscript `d[k]`: `KeyError` when the key is absent. -/
def pyDictGet {κ ν : Type} [DecidableEq κ] (d : List (κ × ν)) (k : κ) : Py ν :=
  match d.find? (fun kv => decide (kv.1 = k)) with
  | some kv => .ok kv.2
  | none => .error .keyError

/-- `Color.is_accessible_with`: looks up `(level.upper(), size.lower())` in the
threshold dict (raising `KeyError` for a missing combination) and returns
`ratio >= threshold`. -/
def Color.is_accessible_with (c other : Color) (level size : String) : Py Bool := do
  let ratio := Color.contrast_ratio c other
  let threshold ← pyDictGet wcagTable (strUpper level, strLower size)
  .ok (decide (threshold ≤ ratio))


/-! ## Palette engine (`PaletteGenerator`) -/

/-- The `PaletteType` enum. -/
inductive PaletteType
  | MONOCHROMATIC
  | ANALOGOUS
  | COMPLEMENTARY
  | SPLIT_COMPLEMENTARY
  | TRIADIC
  | TETRADIC
  | SQUARE
  | CUSTOM
deriving DecidableEq

/-- The `while len(palette) < count` shade-padding loop at the end of
`PaletteGenerator.generate`: appends `base_color.darken(0.15 * len(palette))`
(renamed `"Shade i"`) until the palette reaches `count` entries.  `darken`
itself can raise (see `Color.darken`), so the loop runs in `Py`. -/
def padShades (base : Color) (palette : List Color) (count : ℤ) : Py (List Color) :=
  if h : (palette.length : ℤ) < count then do
    let shade ← Color.darken base (qMul (mkRat 15 100) ((palette.length : ℚ)))
    let shade : Color := ⟨shade.rgb, shade.hsv, shade.hsl,
      String.append "Shade " (toString palette.length), shade.tags⟩
    padShades base (palette ++ [shade]) count
  else .ok palette
termination_by (count - palette.length).toNat
decreasing_by
  simp only [List.length_append, List.length_cons, List.length_nil]
  omega

/-- `PaletteGenerator.generate`.  Every `Color._from_hsl(h, s, l)` call in the
rule branches invokes the *instance* method on the *class* with three
arguments for its four parameters `(self, h, s, l)`, which raises `TypeError`
at the call site; and the final history append evaluates
`base_color.to_hex()`, but `Color` has no `to_hex` attribute (only `RGB`
does), which raises `AttributeError`.  The lock acquisition
(`with self.lock:`) and the history list are process state outside this
functional model; the history append is never reached anyway. -/
def PaletteGenerator.generate (base_color : Color) (palette_type : PaletteType) (count : ℤ) :
    Py (List Color) := do
  let palette := [base_color]
  let palette ← (match palette_type with
    | .MONOCHROMATIC => do
        -- step = 0.8 / (count - 1): ZeroDivisionError when count == 1
        let _step ← pyDiv (mkRat 8 10) (qSub ((count : ℚ)) 1)
        -- for i in range(1, count): first iteration raises the TypeError above
        if 1 < count then Except.error .typeError else Except.ok palette
    | .ANALOGOUS =>
        -- for i, angle in enumerate(angles[:count-1]) over [-30, -15, 15, 30]:
        -- if the slice is nonempty the first iteration raises the TypeError
        if (pySliceTo ([-30, -15, 15, 30] : List ℤ) (count - 1)) ≠ [] then
          Except.error .typeError
        else Except.ok palette
    | .COMPLEMENTARY =>
        -- comp = Color._from_hsl((h + 180) % 360, …): TypeError before any loop
        Except.error .typeError
    | .TRIADIC =>
        -- for angle in [120, 240]: TypeError on the first iteration
        Except.error .typeError
    | .TETRADIC =>
        -- for angle in [90, 180, 270]: TypeError on the first iteration
        Except.error .typeError
    | _ => Except.ok palette)
  let palette ← padShades base_color palette count
  let _ := palette
  -- self.history.append({... "base": base_color.to_hex() ...}): AttributeError
  Except.error .attributeError

/-- All index pairs `i < j` of a list, as value pairs: the enumeration shape of
both `for i, a in enumerate(l) for b in l[i+1:]` (values) and
`for i in range(n) for j in range(i+1, n)` (indices) in `harmony_score`. -/
def pyPairs {α : Type} : List α → List (α × α)
  | [] => []
  | x :: xs => xs.map (fun y => (x, y)) ++ pyPairs xs

/-- Shortest-arc hue difference `min(abs(a - b), 360 - abs(a - b))`. -/
def hueArcDiff (a b : ℚ) : ℚ := min (qAbs (qSub a b)) (qSub 360 (qAbs (qSub a b)))

/-- `PaletteGenerator.harmony_score`: 0.0 below two entries, otherwise
`0.6 * balance + 0.4 * contrast` where `balance` is the fraction of pairwise
shortest-arc HSV-hue differences in `[25, 65]` and `contrast` the fraction of
pairs whose contrast ratio exceeds 4.5 (denominator `n*(n-1)/2`). -/
def PaletteGenerator.harmony_score (palette : List Color) : ℚ :=
  if palette.length < 2 then 0
  else
    let angles := palette.map (fun c => c.hsv.h)
    let diffs := (pyPairs angles).map (fun ab => hueArcDiff ab.1 ab.2)
    let balance := if diffs = [] then 0
      else qDiv ((diffs.countP (fun d => decide (25 ≤ d ∧ d ≤ 65)) : ℚ)) ((diffs.length : ℚ))
    let contrastCount := (pyPairs palette).countP
      (fun cc => decide (mkRat 45 10 < Color.contrast_ratio cc.1 cc.2))
    let contrast := qDiv ((contrastCount : ℚ))
      (qDiv (qMul ((palette.length : ℚ)) (qSub ((palette.length : ℚ)) 1)) 2)
    qAdd (qMul balance (mkRat 6 10)) (qMul contrast (mkRat 4 10))

/-! ## Gradient engine (`GradientGenerator`) -/

/-- `GradientGenerator.linear`: fewer than two colors are returned unchanged;
otherwise `steps // segments` interpolated colors per segment (linear in raw
RGB integer space, channels truncated by `int`), then the last input color is
appended and the whole list sliced to `gradient[:steps]`. -/
def GradientGenerator.linear (colors : List Color) (steps : ℤ) : Py (List Color) :=
  if h2 : colors.length < 2 then .ok colors
  else do
    let segments : ℤ := (colors.length : ℤ) - 1
    let per_segment := steps.fdiv segments
    let pieces ← pyMapM (fun cc : Color × Color =>
        pyMapM (fun j : ℕ =>
            -- ratio = j / per_segment (the loop body only runs when j < per_segment)
            let ratio := qDiv ((j : ℚ)) ((per_segment : ℚ))
            Color.from_rgb
              (pyInt (qAdd ((cc.1.rgb.r : ℚ)) (qMul ratio (qSub ((cc.2.rgb.r : ℚ)) ((cc.1.rgb.r : ℚ))))))
              (pyInt (qAdd ((cc.1.rgb.g : ℚ)) (qMul ratio (qSub ((cc.2.rgb.g : ℚ)) ((cc.1.rgb.g : ℚ))))))
              (pyInt (qAdd ((cc.1.rgb.b : ℚ)) (qMul ratio (qSub ((cc.2.rgb.b : ℚ)) ((cc.1.rgb.b : ℚ))))))
              "" 1)
          (List.range per_segment.toNat))
      (colors.zip colors.tail)
    let gradient := pieces.flatten ++ [colors.getLast (by
      intro hnil
      rw [hnil] at h2
      exact h2 (by simp))]
    .ok (pySliceTo gradient steps)

/-- `GradientGenerator.radial`: a `size × size` grid; the cell at `(x, y)` is
`gradient_colors[min(int(math.sqrt(dx^2+dy^2)), radius)]`, where
`gradient_colors = linear(colors, radius + 1)` and `radius = size // 2`.
The Python list subscript raises `IndexError` when that index is out of
range.  `int(math.sqrt k)` on the integer `k = dx^2 + dy^2` is modelled as
the exact integer square root `isqrtNat`. -/
def GradientGenerator.radial (colors : List Color) (size : ℕ) : Py (List (List Color)) := do
  let center := size / 2
  let radius := center
  let gradient_colors ← GradientGenerator.linear colors ((radius : ℤ) + 1)
  pyMapM (fun y : ℕ =>
      pyMapM (fun x : ℕ =>
          let dx : ℤ := (x : ℤ) - (center : ℤ)
          let dy : ℤ := (y : ℤ) - (center : ℤ)
          let index := min (isqrtNat (dx * dx + dy * dy).toNat) radius
          match gradient_colors[index]? with
          | some c => Except.ok c
          | none => Except.error .indexError)
        (List.range size))
    (List.range size)


/-! ## Reference definitions written from the specification's words
(used to state the claims; the definitions above this section are the
embedding of the source). -/

/-- The base color `#000000` as `Color.from_hex` constructs it
(the identification is proved in the C3 theorem). -/
def blackC : Color := ⟨⟨0, 0, 0, 1⟩, ⟨0, 0, 0⟩, ⟨0, 0, 0⟩, "", []⟩

/-- The color `#FFFFFF` as `Color.from_hex` constructs it. -/
def whiteC : Color := ⟨⟨255, 255, 255, 1⟩, ⟨0, 0, 1⟩, ⟨0, 0, 1⟩, "", []⟩

/-- Monotone non-decrease of every RGB channel along a color list
("monotonically non-decreasing in each channel"). -/
def rgbNonDecrBool : List Color → Bool
  | [] => true
  | [_] => true
  | c1 :: c2 :: t =>
    decide (c1.rgb.r ≤ c2.rgb.r) && decide (c1.rgb.g ≤ c2.rgb.g) &&
      decide (c1.rgb.b ≤ c2.rgb.b) && rgbNonDecrBool (c2 :: t)

/-- Modelled from the spec: `normalizeCase`, the case normalization of a hex
string (hex serialization is lowercase, so normalization maps ASCII letters
to lowercase). -/
def normalizeCase (s : String) : String := String.mk (s.toList.map asciiLowerChar)

/-- The claim's WCAG gamma linearization of one RGB channel: normalize to
`[0,1]`, divide by 12.92 below the 0.03928 threshold, else apply the
`((v+0.055)/1.055)^2.4` power curve. -/
noncomputable def wcagChannelLin (n : ℤ) : ℝ :=
  let v : ℝ := (n : ℝ) / 255
  if v ≤ 0.03928 then v / 12.92 else ((v + 0.055) / 1.055) ^ (2.4 : ℝ)

/-- The claim's WCAG relative luminance: linearized channels weighted by
`(0.2126, 0.7152, 0.0722)`. -/
noncomputable def wcagLum (c : RGB) : ℝ :=
  0.2126 * wcagChannelLin c.r + 0.7152 * wcagChannelLin c.g + 0.0722 * wcagChannelLin c.b

/-- The claim's WCAG contrast ratio `(max(L1,L2)+0.05)/(min(L1,L2)+0.05)`. -/
noncomputable def wcagContrastSpec (a b : RGB) : ℝ :=
  (max (wcagLum a) (wcagLum b) + 0.05) / (min (wcagLum a) (wcagLum b) + 0.05)

/-- The claim's accessibility threshold table, keyed by the (case-normalized)
level and size: AA-normal=4.5, AA-large=3.0, AAA-normal=7.0, AAA-large=4.5,
and nothing else. -/
def specThreshold (level size : String) : Option ℚ :=
  if strUpper level = "AA" ∧ strLower size = "normal" then some (mkRat 45 10)
  else if strUpper level = "AA" ∧ strLower size = "large" then some 3
  else if strUpper level = "AAA" ∧ strLower size = "normal" then some 7
  else if strUpper level = "AAA" ∧ strLower size = "large" then some (mkRat 45 10)
  else none

/-- The claim's `balance`: the fraction (out of all `n*(n-1)/2` pairs) of
pairwise shortest-arc hue differences lying in `[25, 65]` degrees. -/
def balanceFracSpec (palette : List Color) : ℚ :=
  qDiv (((pyPairs (palette.map (fun c => c.hsv.h))).countP
      (fun ab => decide (25 ≤ hueArcDiff ab.1 ab.2 ∧ hueArcDiff ab.1 ab.2 ≤ 65)) : ℚ))
    (qDiv (qMul ((palette.length : ℚ)) (qSub ((palette.length : ℚ)) 1)) 2)

/-- The claim's `contrast`: the fraction of pairs whose contrast ratio
exceeds 4.5. -/
def contrastFracSpec (palette : List Color) : ℚ :=
  qDiv (((pyPairs palette).countP
      (fun cc => decide (mkRat 45 10 < Color.contrast_ratio cc.1 cc.2)) : ℚ))
    (qDiv (qMul ((palette.length : ℚ)) (qSub ((palette.length : ℚ)) 1)) 2)

/-! ## Theorems -/

set_option maxRecDepth 8000

theorem qAdd_eq (a b : ℚ) : qAdd a b = a + b := by
  have ha : ((a.den : ℚ)) ≠ 0 := by exact_mod_cast a.den_nz
  have hb : ((b.den : ℚ)) ≠ 0 := by exact_mod_cast b.den_nz
  rw [qAdd, Rat.divInt_eq_div]
  conv_rhs => rw [← Rat.num_div_den a, ← Rat.num_div_den b]
  rw [div_add_div _ _ ha hb]
  push_cast
  ring_nf

theorem qNeg_eq (a : ℚ) : qNeg a = -a := by
  rw [qNeg, Rat.divInt_eq_div]
  push_cast
  rw [neg_div, Rat.num_div_den]

theorem qSub_eq (a b : ℚ) : qSub a b = a - b := by
  rw [qSub, qAdd_eq, qNeg_eq, sub_eq_add_neg]

theorem qMul_eq (a b : ℚ) : qMul a b = a * b := by
  rw [qMul, Rat.divInt_eq_div]
  conv_rhs => rw [← Rat.num_div_den a, ← Rat.num_div_den b]
  rw [div_mul_div_comm]
  push_cast
  ring_nf

theorem qDiv_eq (a b : ℚ) : qDiv a b = a / b := by
  rcases eq_or_ne b 0 with hb | hb
  · subst hb
    rw [qDiv]
    norm_num
  · have ha : ((a.den : ℚ)) ≠ 0 := by exact_mod_cast a.den_nz
    have hbd : ((b.den : ℚ)) ≠ 0 := by exact_mod_cast b.den_nz
    have hbn : ((b.num : ℚ)) ≠ 0 := by exact_mod_cast Rat.num_ne_zero.mpr hb
    rw [qDiv, Rat.divInt_eq_div]
    conv_rhs => rw [← Rat.num_div_den a, ← Rat.num_div_den b]
    push_cast
    field_simp

theorem pyInt_ofNonneg (q : ℚ) (h : 0 ≤ q) : 0 ≤ pyInt q := by
  rw [pyInt, if_pos h]
  exact Int.ofNat_nonneg _

theorem pyMapM_length {α β : Type} (f : α → Py β) (l : List α) (out : List β)
    (h : pyMapM f l = .ok out) : out.length = l.length := by
  induction l generalizing out with
  | nil =>
    rw [pyMapM] at h
    cases h
    rfl
  | cons a t ih =>
    rw [pyMapM] at h
    cases hfa : f a with
    | error e => rw [hfa] at h; exact absurd h (by simp [Bind.bind, Except.bind])
    | ok b =>
      rw [hfa] at h
      cases hft : pyMapM f t with
      | error e => rw [hft] at h; exact absurd h (by simp [Bind.bind, Except.bind])
      | ok bs =>
        rw [hft] at h
        simp only [Bind.bind, Except.bind] at h
        cases h
        simp [ih bs hft]

theorem pyMapM_ok {α β : Type} (f : α → Py β) (l : List α)
    (h : ∀ a ∈ l, ∃ b, f a = .ok b) : ∃ out, pyMapM f l = .ok out := by
  induction l with
  | nil => exact ⟨[], rfl⟩
  | cons a t ih =>
    obtain ⟨b, hb⟩ := h a (by simp)
    obtain ⟨bs, hbs⟩ := ih (fun x hx => h x (by simp [hx]))
    exact ⟨b :: bs, by rw [pyMapM, hb, hbs]; rfl⟩

theorem isqrtNat_pos (n : ℕ) (h : 1 ≤ n) : 1 ≤ isqrtNat n := by
  rw [isqrtNat, List.countP_eq_length_filter]
  have h0 : (0 : ℕ) ∈ (List.range n).filter (fun j => decide ((j + 1) * (j + 1) ≤ n)) := by
    rw [List.mem_filter]
    exact ⟨List.mem_range.mpr (by omega), by simpa using h⟩
  exact List.length_pos.mpr (List.ne_nil_of_mem h0)

theorem bind_throw_error {α β : Type} (x : Py α) (e : PyError) :
    ∃ e', (x >>= fun _ => (Except.error e : Py β)) = .error e' := by
  cases x with
  | error e0 => exact ⟨e0, rfl⟩
  | ok a => exact ⟨e, rfl⟩

theorem pyPairs_ne_nil {α : Type} (x y : α) (t : List α) : pyPairs (x :: y :: t) ≠ [] := by
  simp [pyPairs]

theorem two_mul_length_pyPairs {α : Type} (l : List α) :
    2 * (pyPairs l).length = l.length * (l.length - 1) := by
  induction l with
  | nil => rfl
  | cons x xs ih =>
    simp only [pyPairs, List.length_append, List.length_map, List.length_cons]
    cases hx : xs.length with
    | zero =>
      have : pyPairs xs = [] := by
        cases xs with
        | nil => rfl
        | cons a t => simp at hx
      simp [this, hx]
    | succ k =>
      rw [hx] at ih
      simp only [Nat.add_sub_cancel] at ih ⊢
      nlinarith [ih]

theorem countP_pyPairs_le {α : Type} (p : α × α → Bool) (l : List α) :
    (pyPairs l).countP p ≤ (pyPairs l).length := List.countP_le_length p

/-- C8: `contrast_ratio` is symmetric in its two arguments. -/
theorem c8_contrast_symmetric (a b : Color) :
    Color.contrast_ratio a b = Color.contrast_ratio b a := by
  simp only [Color.contrast_ratio]
  rw [max_comm, min_comm]

/-- C5 counterexample: `lighten` does *not* leave the hue unchanged — on
`Color.from_rgb(10, 25, 40)` (hue 210) a `lighten(0.05)` produces a color
whose stored hue is `632/3 ≈ 210.67`, because the result is re-derived from
the 8-bit-truncated RGB channels. -/
theorem c5_counterexample_hue_changes :
    (do
      let c ← Color.from_rgb 10 25 40 "" 1
      let c2 ← Color.lighten c (mkRat 1 20)
      pure (c.hsl.h, c2.hsl.h) : Py (ℚ × ℚ)) = .ok (210, mkRat 632 3) ∧
    (210 : ℚ) ≠ mkRat 632 3 := by
  constructor
  · decide
  · decide

/-- C5 (amended): the four adjustment operations work in HSL space but clamp
the adjusted component only at the *upper* bound 1.0 (values below 0 are
passed on unclamped, observably: desaturating `rgb(191, 63, 63)` by 2 drives
the saturation to `-190/127 < 0` and yields cyan `#00ffff`, not the gray
`#7f7f7f` that clamping the saturation at 0 would give); the result is then
rebuilt from quantized RGB, so its stored hue may differ from the original
(see the counterexample). -/
theorem c5_hsl_adjustment_upper_clamp_only :
    (∀ (c : Color) (a : ℚ),
      Color.lighten c a = Color._from_hsl c c.hsl.h c.hsl.s (min 1 (qAdd c.hsl.l a)) ∧
      Color.darken c a = Color.lighten c (qNeg a) ∧
      Color.saturate c a = Color._from_hsl c c.hsl.h (min 1 (qAdd c.hsl.s a)) c.hsl.l ∧
      Color.desaturate c a = Color.saturate c (qNeg a)) ∧
    ((do
      let c ← Color.from_rgb 191 63 63 "" 1
      let d ← Color.desaturate c 2
      let z ← Color._from_hsl c c.hsl.h 0 c.hsl.l
      pure (min 1 (qAdd c.hsl.s (qNeg 2)), RGB.to_hex d.rgb, RGB.to_hex z.rgb) :
        Py (ℚ × String × String)) = .ok (mkRat (-190) 127, "#00ffff", "#7f7f7f")) ∧
    mkRat (-190) 127 < 0 ∧ "#00ffff" ≠ "#7f7f7f" := by
  refine ⟨fun c a => ⟨rfl, rfl, rfl, rfl⟩, by decide, by decide, by decide⟩

/-- C2: the code's `contrast_ratio` does *not* implement the claim's WCAG
formula.  On `#808080` versus `#000000` the code returns exactly `563/51`
(≈ 11.04), because its linearization loop assigns into the fresh list literal
`[r, g, b][i]` and therefore never linearizes the channels, while the claim's
formula yields a value strictly below `563/51` (it is ≈ 5.32). -/
theorem c2_contrast_code_deviates_from_wcag :
    ((do
      let g ← Color.from_hex "#808080" ""
      let k ← Color.from_hex "#000000" ""
      pure (g.rgb, k.rgb, Color.contrast_ratio g k) : Py (RGB × RGB × ℚ)) =
      .ok (⟨128, 128, 128, 1⟩, ⟨0, 0, 0, 1⟩, mkRat 563 51)) ∧
    wcagContrastSpec ⟨128, 128, 128, 1⟩ ⟨0, 0, 0, 1⟩ < ((mkRat 563 51 : ℚ) : ℝ) := by
  constructor
  · decide
  · have hcast : ((mkRat 563 51 : ℚ) : ℝ) = 563 / 51 := by
      rw [Rat.mkRat_eq_div]
      push_cast
      norm_num
    have h0 : wcagChannelLin 0 = 0 := by
      rw [wcagChannelLin]
      norm_num
    have h128 : wcagChannelLin 128 = ((5681 : ℝ) / 10761) ^ (2.4 : ℝ) := by
      rw [wcagChannelLin]
      norm_num
    have hBpos : (0 : ℝ) < (5681 : ℝ) / 10761 := by norm_num
    have hBlt : ((5681 : ℝ) / 10761) < 1 := by norm_num
    have hrp : ((5681 : ℝ) / 10761) ^ (2.4 : ℝ) < ((5681 : ℝ) / 10761) ^ (2 : ℝ) :=
      Real.rpow_lt_rpow_of_exponent_gt hBpos hBlt (by norm_num)
    have h2 : ((5681 : ℝ) / 10761) ^ (2 : ℝ) = ((5681 : ℝ) / 10761) ^ (2 : ℕ) := by
      rw [← Real.rpow_natCast]
      norm_num
    have hlt : ((5681 : ℝ) / 10761) ^ (2.4 : ℝ) < 28 / 100 := by
      rw [h2] at hrp
      calc ((5681 : ℝ) / 10761) ^ (2.4 : ℝ) < ((5681 : ℝ) / 10761) ^ (2 : ℕ) := hrp
      _ < 28 / 100 := by norm_num
    have hnn : (0 : ℝ) ≤ ((5681 : ℝ) / 10761) ^ (2.4 : ℝ) := Real.rpow_nonneg (le_of_lt hBpos) _
    rw [hcast, wcagContrastSpec, wcagLum, wcagLum, h0, h128]
    have hsum :
        (0.2126 : ℝ) * (((5681 : ℝ) / 10761) ^ (2.4 : ℝ)) +
          0.7152 * (((5681 : ℝ) / 10761) ^ (2.4 : ℝ)) +
          0.0722 * (((5681 : ℝ) / 10761) ^ (2.4 : ℝ)) = ((5681 : ℝ) / 10761) ^ (2.4 : ℝ) := by
      ring
    have hz : (0.2126 : ℝ) * 0 + 0.7152 * 0 + 0.0722 * 0 = 0 := by ring
    rw [hsum, hz, max_eq_left hnn, min_eq_right hnn]
    rw [div_lt_iff (by norm_num : (0 : ℝ) < 0 + 0.05)]
    nlinarith [hlt]

/-- C1: `PaletteGenerator.generate` *always* raises, for every base color,
every rule and every count: the rule branches call the instance method
`Color._from_hsl` on the class (three arguments for four parameters —
`TypeError`), `MONOCHROMATIC` with `count = 1` divides `0.8` by zero first,
and any branch that survives still evaluates `base_color.to_hex()` in the
history append, an attribute `Color` does not have (`AttributeError`).
Concretely, a TRIADIC palette from the valid base `#6200ee` with count 5
raises `TypeError`. -/
theorem c1_generate_always_raises :
    (∀ (base : Color) (ptype : PaletteType) (count : ℤ),
      ∃ e, PaletteGenerator.generate base ptype count = .error e) ∧
    (Color.from_hex "#6200ee" "").bind
      (fun b => PaletteGenerator.generate b .TRIADIC 5) = .error .typeError := by
  constructor
  · intro base ptype count
    have key : ∀ (x : Py (List Color)),
        ∃ e, (x >>= fun pal => padShades base pal count >>= fun pal2 =>
          (Except.error PyError.attributeError : Py (List Color))) = .error e := by
      intro x
      cases x with
      | error e => exact ⟨e, rfl⟩
      | ok pal =>
        cases h2 : padShades base pal count with
        | error e => exact ⟨e, by simp [Bind.bind, Except.bind, h2]⟩
        | ok pal2 => exact ⟨PyError.attributeError, by simp [Bind.bind, Except.bind, h2]⟩
    cases ptype <;> exact key _
  · decide

/-- C10: `radial` on fewer than two colors and any `size ≥ 2` raises an
index error: the internal `linear` call returns the input list unchanged
(fewer than `radius + 1` entries), while already the first grid cell looks up
index `min(int(dist), radius) ≥ 1`. -/
theorem c10_radial_underfilled_raises
    (colors : List Color) (size : ℕ) (hlen : colors.length < 2) (hsize : 2 ≤ size) :
    ∃ e, GradientGenerator.radial colors size = .error e := by
  refine ⟨.indexError, ?_⟩
  have hlin : GradientGenerator.linear colors (((size / 2 : ℕ) : ℤ) + 1) = .ok colors := by
    rw [GradientGenerator.linear, dif_pos hlen]
  have hc1 : 1 ≤ size / 2 := by omega
  have hk : 1 ≤ (((0 : ℕ) : ℤ) - ((size / 2 : ℕ) : ℤ)) * (((0 : ℕ) : ℤ) - ((size / 2 : ℕ) : ℤ)) +
      (((0 : ℕ) : ℤ) - ((size / 2 : ℕ) : ℤ)) * (((0 : ℕ) : ℤ) - ((size / 2 : ℕ) : ℤ)) := by
    have h1 : (1 : ℤ) ≤ ((size / 2 : ℕ) : ℤ) := by exact_mod_cast hc1
    have hcc : (1 : ℤ) ≤ ((size / 2 : ℕ) : ℤ) * ((size / 2 : ℕ) : ℤ) :=
      le_trans h1 (le_mul_of_one_le_left (by linarith) h1)
    have hring : (((0 : ℕ) : ℤ) - ((size / 2 : ℕ) : ℤ)) * (((0 : ℕ) : ℤ) - ((size / 2 : ℕ) : ℤ)) =
        ((size / 2 : ℕ) : ℤ) * ((size / 2 : ℕ) : ℤ) := by ring
    linarith [hring]
  have hk' : 1 ≤ ((((0 : ℕ) : ℤ) - ((size / 2 : ℕ) : ℤ)) * (((0 : ℕ) : ℤ) - ((size / 2 : ℕ) : ℤ)) +
      (((0 : ℕ) : ℤ) - ((size / 2 : ℕ) : ℤ)) * (((0 : ℕ) : ℤ) - ((size / 2 : ℕ) : ℤ))).toNat := by
    omega
  have hidx : colors.length ≤ min (isqrtNat ((((0 : ℕ) : ℤ) - ((size / 2 : ℕ) : ℤ)) *
      (((0 : ℕ) : ℤ) - ((size / 2 : ℕ) : ℤ)) + (((0 : ℕ) : ℤ) - ((size / 2 : ℕ) : ℤ)) *
      (((0 : ℕ) : ℤ) - ((size / 2 : ℕ) : ℤ))).toNat) (size / 2) := by
    have h1 := isqrtNat_pos _ hk'
    omega
  have hnone : colors[min (isqrtNat ((((0 : ℕ) : ℤ) - ((size / 2 : ℕ) : ℤ)) *
      (((0 : ℕ) : ℤ) - ((size / 2 : ℕ) : ℤ)) + (((0 : ℕ) : ℤ) - ((size / 2 : ℕ) : ℤ)) *
      (((0 : ℕ) : ℤ) - ((size / 2 : ℕ) : ℤ))).toNat) (size / 2)]? = none :=
    List.getElem?_eq_none hidx
  obtain ⟨k, hs1⟩ : ∃ k, size = k + 1 := ⟨size - 1, by omega⟩
  have hr : List.range size = 0 :: (List.range k).map Nat.succ := by
    rw [hs1, List.range_succ_eq_map]
  rw [GradientGenerator.radial, hlin]
  simp only [Bind.bind, Except.bind]
  rw [hr]
  simp only [pyMapM, hnone, Bind.bind, Except.bind]

/-- C10 witness: `radial([], 2)` raises. -/
theorem c10_witness :
    (([] : List Color).length < 2 ∧ 2 ≤ 2) ∧
    ∃ e, GradientGenerator.radial [] 2 = .error e :=
  ⟨⟨by decide, by decide⟩, c10_radial_underfilled_raises [] 2 (by decide) (by decide)⟩

/-- C6: `harmony_score` returns 0 for palettes of length below 2; for longer
palettes it equals `0.6 * balance + 0.4 * contrast` with the fractions of the
claim (`balanceFracSpec`, `contrastFracSpec`), and it always lies in `[0,1]`. -/
theorem c6_harmony_score_structure (palette : List Color) :
    (palette.length < 2 → PaletteGenerator.harmony_score palette = 0) ∧
    (2 ≤ palette.length →
      PaletteGenerator.harmony_score palette =
        qAdd (qMul (balanceFracSpec palette) (mkRat 6 10))
          (qMul (contrastFracSpec palette) (mkRat 4 10)) ∧
      0 ≤ PaletteGenerator.harmony_score palette ∧
      PaletteGenerator.harmony_score palette ≤ 1) := by
  constructor
  · intro h
    rw [PaletteGenerator.harmony_score, if_pos h]
  · intro h
    obtain ⟨x, y, t, hxyt⟩ : ∃ x y t, palette = x :: y :: t := by
      match palette, h with
      | x :: y :: t, _ => exact ⟨x, y, t, rfl⟩
    have hdne : (pyPairs (palette.map (fun c => c.hsv.h))).map
        (fun ab => hueArcDiff ab.1 ab.2) ≠ [] := by
      rw [hxyt]
      simpa using pyPairs_ne_nil x.hsv.h y.hsv.h (t.map (fun c => c.hsv.h))
    have h1n : 1 ≤ palette.length := by omega
    have hcastA : (((pyPairs (palette.map (fun c => c.hsv.h))).length : ℚ)) =
        (palette.length : ℚ) * ((palette.length : ℚ) - 1) / 2 := by
      have h2A : 2 * (pyPairs (palette.map (fun c => c.hsv.h))).length =
          palette.length * (palette.length - 1) := by
        rw [two_mul_length_pyPairs, List.length_map]
      have hc := congrArg (fun m : ℕ => (m : ℚ)) h2A
      push_cast [Nat.cast_sub h1n] at hc
      linarith
    have hcastP : (((pyPairs palette).length : ℚ)) =
        (palette.length : ℚ) * ((palette.length : ℚ) - 1) / 2 := by
      have hc := congrArg (fun m : ℕ => (m : ℚ)) (two_mul_length_pyPairs palette)
      push_cast [Nat.cast_sub h1n] at hc
      linarith
    have hden_pos : (0 : ℚ) < (palette.length : ℚ) * ((palette.length : ℚ) - 1) / 2 := by
      have : (2 : ℚ) ≤ (palette.length : ℚ) := by exact_mod_cast h
      nlinarith
    rw [PaletteGenerator.harmony_score]
    rw [if_neg (by omega)]
    simp only [if_neg hdne, balanceFracSpec, contrastFracSpec, qAdd_eq, qMul_eq, qDiv_eq,
      qSub_eq, List.countP_map, List.length_map, Function.comp_def]
    rw [hcastA]
    have hbal1 : ((((pyPairs (palette.map (fun c => c.hsv.h))).countP
        (fun ab => decide (25 ≤ hueArcDiff ab.1 ab.2 ∧ hueArcDiff ab.1 ab.2 ≤ 65))) : ℚ)) ≤
        (palette.length : ℚ) * ((palette.length : ℚ) - 1) / 2 := by
      rw [← hcastA]
      exact_mod_cast countP_pyPairs_le _ _
    have hcon1 : ((((pyPairs palette).countP
        (fun cc => decide (mkRat 45 10 < Color.contrast_ratio cc.1 cc.2))) : ℚ)) ≤
        (palette.length : ℚ) * ((palette.length : ℚ) - 1) / 2 := by
      rw [← hcastP]
      exact_mod_cast countP_pyPairs_le _ _
    have hbal0 : (0 : ℚ) ≤ (((pyPairs (palette.map (fun c => c.hsv.h))).countP
        (fun ab => decide (25 ≤ hueArcDiff ab.1 ab.2 ∧ hueArcDiff ab.1 ab.2 ≤ 65))) : ℚ) := by
      positivity
    have hcon0 : (0 : ℚ) ≤ (((pyPairs palette).countP
        (fun cc => decide (mkRat 45 10 < Color.contrast_ratio cc.1 cc.2))) : ℚ) := by
      positivity
    have hfb := div_le_one_of_le hbal1 (le_of_lt hden_pos)
    have hfc := div_le_one_of_le hcon1 (le_of_lt hden_pos)
    have hfb0 := div_nonneg hbal0 (le_of_lt hden_pos)
    have hfc0 := div_nonneg hcon0 (le_of_lt hden_pos)
    have h6 : (mkRat 6 10 : ℚ) = 6 / 10 := by rw [Rat.mkRat_eq_div]; norm_num
    have h4 : (mkRat 4 10 : ℚ) = 4 / 10 := by rw [Rat.mkRat_eq_div]; norm_num
    refine ⟨rfl, ?_, ?_⟩
    · rw [h6, h4]
      nlinarith [hfb0, hfc0]
    · rw [h6, h4]
      nlinarith [hfb, hfc, hfb0, hfc0]

/-- C6 witness: the two-color palette black/white has score
`0.6*0 + 0.4*1 = 0.4`, inside `[0,1]`. -/
theorem c6_witness :
    PaletteGenerator.harmony_score [blackC, whiteC] =
      qAdd (qMul (balanceFracSpec [blackC, whiteC]) (mkRat 6 10))
        (qMul (contrastFracSpec [blackC, whiteC]) (mkRat 4 10)) ∧
    0 ≤ PaletteGenerator.harmony_score [blackC, whiteC] ∧
    PaletteGenerator.harmony_score [blackC, whiteC] ≤ 1 :=
  (c6_harmony_score_structure [blackC, whiteC]).2 (by decide)

/-- C7: the accessibility check agrees with the claim's threshold table
(`specThreshold`): inside the table it returns whether the contrast ratio
meets the threshold, outside the table it raises (`KeyError`, the source of
the spec's `InvalidParameter`). -/
theorem c7_accessibility_threshold_table (a b : Color) (level size : String) :
    (∀ t, specThreshold level size = some t →
      Color.is_accessible_with a b level size = .ok (decide (t ≤ Color.contrast_ratio a b))) ∧
    (specThreshold level size = none →
      Color.is_accessible_with a b level size = .error .keyError) := by
  rw [Color.is_accessible_with, specThreshold]
  by_cases h1 : strUpper level = "AA" ∧ strLower size = "normal"
  · rw [if_pos h1]
    constructor
    · intro t ht
      cases ht
      simp [pyDictGet, wcagTable, List.find?, h1.1, h1.2, WCAG_AA_NORMAL, Bind.bind, Except.bind]
    · intro ht
      cases ht
  · rw [if_neg h1]
    by_cases h2 : strUpper level = "AA" ∧ strLower size = "large"
    · rw [if_pos h2]
      constructor
      · intro t ht
        cases ht
        have hne : ¬(strLower size = "normal") := by
          intro hc
          exact absurd (h2.2.symm.trans hc) (by decide)
        simp [pyDictGet, wcagTable, List.find?, h2.1, h2.2, hne, WCAG_AA_LARGE,
          Bind.bind, Except.bind, Prod.ext_iff]
      · intro ht
        cases ht
    · rw [if_neg h2]
      by_cases h3 : strUpper level = "AAA" ∧ strLower size = "normal"
      · rw [if_pos h3]
        constructor
        · intro t ht
          cases ht
          have hne : ¬(strUpper level = "AA") := by
            intro hc
            exact absurd (h3.1.symm.trans hc) (by decide)
          simp [pyDictGet, wcagTable, List.find?, h3.1, h3.2, hne, WCAG_AAA_NORMAL,
            Bind.bind, Except.bind, Prod.ext_iff]
        · intro ht
          cases ht
      · rw [if_neg h3]
        by_cases h4 : strUpper level = "AAA" ∧ strLower size = "large"
        · rw [if_pos h4]
          constructor
          · intro t ht
            cases ht
            have hneU : ¬(strUpper level = "AA") := by
              intro hc
              exact absurd (h4.1.symm.trans hc) (by decide)
            have hneS : ¬(strLower size = "normal") := by
              intro hc
              exact absurd (h4.2.symm.trans hc) (by decide)
            simp [pyDictGet, wcagTable, List.find?, h4.1, h4.2, hneU, hneS, WCAG_AAA_LARGE,
              Bind.bind, Except.bind, Prod.ext_iff]
          · intro ht
            cases ht
        · rw [if_neg h4]
          constructor
          · intro t ht
            cases ht
          · intro _
            have hfind : wcagTable.find?
                (fun kv => decide (kv.1 = (strUpper level, strLower size))) = none := by
              rw [List.find?_eq_none]
              intro kv hkv
              simp only [wcagTable, List.mem_cons, List.mem_singleton] at hkv
              rcases hkv with h | h | h | h | h
              · subst h
                simp only [decide_eq_true_eq, Prod.ext_iff]
                intro hc
                exact h1 ⟨hc.1.symm, hc.2.symm⟩
              · subst h
                simp only [decide_eq_true_eq, Prod.ext_iff]
                intro hc
                exact h2 ⟨hc.1.symm, hc.2.symm⟩
              · subst h
                simp only [decide_eq_true_eq, Prod.ext_iff]
                intro hc
                exact h3 ⟨hc.1.symm, hc.2.symm⟩
              · subst h
                simp only [decide_eq_true_eq, Prod.ext_iff]
                intro hc
                exact h4 ⟨hc.1.symm, hc.2.symm⟩
              · exact absurd h (List.not_mem_nil _)
            simp [pyDictGet, hfind, Bind.bind, Except.bind]

/-- C7 witness: `is_accessible_with` on black/white at level `"aa"`, size
`"Normal"` (case-normalized into the table) evaluates through the AA-normal
threshold. -/
theorem c7_witness :
    Color.is_accessible_with blackC whiteC "aa" "Normal" =
      .ok (decide ((mkRat 45 10) ≤ Color.contrast_ratio blackC whiteC)) :=
  (c7_accessibility_threshold_table blackC whiteC "aa" "Normal").1 (mkRat 45 10) (by decide)

theorem rgb_to_hsv_ok (r g b : ℚ) (hr : 0 ≤ r) (hg : 0 ≤ g) (hb : 0 ≤ b) :
    ∃ t, rgb_to_hsv r g b = .ok t := by
  simp only [rgb_to_hsv]
  by_cases h : min r (min g b) = max r (max g b)
  · rw [if_pos h]
    exact ⟨_, rfl⟩
  · rw [if_neg h]
    have hmax : ¬(max r (max g b) = 0) := by
      intro h0
      apply h
      have hr0 : r = 0 := le_antisymm (le_trans (le_max_left _ _) (le_of_eq h0)) hr
      have hg0 : g = 0 :=
        le_antisymm (le_trans (le_trans (le_max_left g b) (le_max_right r _)) (le_of_eq h0)) hg
      have hb0 : b = 0 :=
        le_antisymm (le_trans (le_trans (le_max_right g b) (le_max_right r _)) (le_of_eq h0)) hb
      rw [hr0, hg0, hb0]
      simp
    rw [pyDiv, if_neg hmax]
    simp only [Bind.bind, Except.bind]
    exact ⟨_, rfl⟩

theorem from_rgb_ok (r g b : ℤ) (name : String) (a : ℚ)
    (hr : 0 ≤ r) (hg : 0 ≤ g) (hb : 0 ≤ b) :
    ∃ c, Color.from_rgb r g b name a = .ok c ∧ c.rgb = RGB.make r g b a := by
  have h255 : (0 : ℚ) < 255 := by norm_num
  obtain ⟨t, ht⟩ := rgb_to_hsv_ok (qDiv ((r : ℚ)) 255) (qDiv ((g : ℚ)) 255) (qDiv ((b : ℚ)) 255)
    (by rw [qDiv_eq]; positivity) (by rw [qDiv_eq]; positivity) (by rw [qDiv_eq]; positivity)
  cases hh : Color.from_rgb r g b name a with
  | error e =>
    rw [Color.from_rgb, ht] at hh
    simp [Bind.bind, Except.bind] at hh
  | ok c =>
    refine ⟨c, rfl, ?_⟩
    rw [Color.from_rgb, ht] at hh
    simp only [Bind.bind, Except.bind, Except.ok.injEq] at hh
    rw [← hh]

/-- C3 counterexample: `linear([#000000, #FFFFFF], 256)` does *not* end with
the exact last input color: the appended copy of `#FFFFFF` is cut off by the
`gradient[:steps]` truncation (`1` segment × `256` per segment + `1` appended
= `257` entries), so the final entry is the last interpolant `#fefefe`.
Moreover, with more than one segment the result can have *fewer* than `steps`
entries (four inputs, `steps = 5`: `3*(5//3) + 1 = 4`). -/
theorem c3_counterexample_final_entry :
    ((do
      let b ← Color.from_hex "#000000" ""
      let w ← Color.from_hex "#FFFFFF" ""
      let g ← GradientGenerator.linear [b, w] 256
      pure (decide (g.getLast? = some w), g.getLast?.map (fun c => RGB.to_hex c.rgb)) :
        Py (Bool × Option String)) = .ok (false, some "#fefefe")) ∧
    ((do
      let b ← Color.from_hex "#000000" ""
      let w ← Color.from_hex "#FFFFFF" ""
      let g ← GradientGenerator.linear [b, w, b, w] 5
      pure g.length : Py ℕ) = .ok 4) := by
  constructor
  · decide
  · decide

theorem linear_two_color_exact_length (steps : ℤ) (hsteps : 1 ≤ steps) :
    ∃ g, GradientGenerator.linear [blackC, whiteC] steps = .ok g ∧ (g.length : ℤ) = steps := by
  have hsq : (0 : ℚ) ≤ (steps : ℚ) := by
    have : (0 : ℤ) ≤ steps := by omega
    exact_mod_cast this
  have hch : ∀ j : ℕ, 0 ≤ qAdd ((blackC.rgb.r : ℚ))
      (qMul (qDiv ((j : ℚ)) ((steps : ℚ))) (qSub ((whiteC.rgb.r : ℚ)) ((blackC.rgb.r : ℚ)))) := by
    intro j
    simp only [qAdd_eq, qMul_eq, qDiv_eq, qSub_eq, blackC, whiteC]
    norm_num
    positivity
  obtain ⟨out, hout⟩ : ∃ out, pyMapM (fun j : ℕ =>
      Color.from_rgb
        (pyInt (qAdd ((blackC.rgb.r : ℚ))
          (qMul (qDiv ((j : ℚ)) ((steps : ℚ))) (qSub ((whiteC.rgb.r : ℚ)) ((blackC.rgb.r : ℚ))))))
        (pyInt (qAdd ((blackC.rgb.g : ℚ))
          (qMul (qDiv ((j : ℚ)) ((steps : ℚ))) (qSub ((whiteC.rgb.g : ℚ)) ((blackC.rgb.g : ℚ))))))
        (pyInt (qAdd ((blackC.rgb.b : ℚ))
          (qMul (qDiv ((j : ℚ)) ((steps : ℚ))) (qSub ((whiteC.rgb.b : ℚ)) ((blackC.rgb.b : ℚ))))))
        "" 1) (List.range steps.toNat) = .ok out := by
    apply pyMapM_ok
    intro j _
    obtain ⟨c, hc, _⟩ := from_rgb_ok _ _ _ "" 1
      (pyInt_ofNonneg _ (hch j)) (pyInt_ofNonneg _ (hch j)) (pyInt_ofNonneg _ (hch j))
    exact ⟨c, hc⟩
  have hlen : out.length = steps.toNat := by
    have := pyMapM_length _ _ _ hout
    simpa using this
  rw [GradientGenerator.linear, dif_neg (by norm_num)]
  simp only [List.length_cons, List.length_nil, List.tail_cons, List.zip_cons_cons,
    List.zip_nil_right]
  norm_num
  simp only [pyMapM, hout, Bind.bind, Except.bind]
  refine ⟨_, rfl, ?_⟩
  rw [pySliceTo, if_pos (by omega : (0 : ℤ) ≤ steps)]
  simp only [List.flatten, List.append_nil, List.length_take, List.length_append,
    List.length_cons, List.length_nil, hlen]
  omega

/-- C3 (amended): for the two-color list `[#000000, #FFFFFF]` the output has
exactly `steps` entries for every `steps ≥ 1`; at `steps = 256` it starts at
`#000000` and is monotonically non-decreasing in every channel, but its final
entry is `#fefefe`, not the exact last input color (which only survives the
`[:steps]` truncation when the interpolation loop produces fewer than `steps`
entries — with more segments the total can also fall short of `steps`, see
the counterexample). -/
theorem c3_linear_black_white :
    (∀ steps : ℤ, 1 ≤ steps →
      ∃ g, GradientGenerator.linear [blackC, whiteC] steps = .ok g ∧ (g.length : ℤ) = steps) ∧
    ((GradientGenerator.linear [blackC, whiteC] 256).map
      (fun g => (g.length, g.head?.map (fun c => RGB.to_hex c.rgb),
        g.getLast?.map (fun c => RGB.to_hex c.rgb), rgbNonDecrBool g)) =
      .ok (256, some "#000000", some "#fefefe", true)) ∧
    Color.from_hex "#000000" "" = .ok blackC ∧ Color.from_hex "#FFFFFF" "" = .ok whiteC := by
  refine ⟨linear_two_color_exact_length, ?_, by decide, by decide⟩
  decide

/-- C3 witness: at `steps = 7` the gradient has exactly 7 entries. -/
theorem c3_witness :
    ∃ g, GradientGenerator.linear [blackC, whiteC] 7 = .ok g ∧ (g.length : ℤ) = 7 :=
  c3_linear_black_white.1 7 (by norm_num)

theorem hexDigitVal_lower (c : Char) (n : ℕ) (h : hexDigitVal c = .ok n) :
    n ≤ 15 ∧ hexDigitChar n = asciiLowerChar c ∧ (c == '#') = false := by
  have hhash : ∀ m : ℕ, (35 ≤ m ∧ m ≤ 35) → True := fun _ _ => trivial
  rw [hexDigitVal] at h
  split_ifs at h with h1 h2 h3
  · cases h
    refine ⟨by omega, ?_, ?_⟩
    · rw [hexDigitChar, if_pos (by omega), asciiLowerChar, if_neg (by omega)]
      have he : 48 + (c.toNat - 48) = c.toNat := by omega
      rw [he, Char.ofNat_toNat]
    · rw [beq_eq_false_iff_ne]
      intro hc
      subst hc
      revert h1
      decide
  · cases h
    refine ⟨by omega, ?_, ?_⟩
    · rw [hexDigitChar, if_neg (by omega), asciiLowerChar, if_neg (by omega)]
      have he : 87 + (c.toNat - 87) = c.toNat := by omega
      rw [he, Char.ofNat_toNat]
    · rw [beq_eq_false_iff_ne]
      intro hc
      subst hc
      revert h2
      decide
  · cases h
    refine ⟨by omega, ?_, ?_⟩
    · rw [hexDigitChar, if_neg (by omega), asciiLowerChar, if_pos (by omega)]
      have he : 87 + (c.toNat - 55) = c.toNat + 32 := by omega
      rw [he]
    · rw [beq_eq_false_iff_ne]
      intro hc
      subst hc
      revert h3
      decide

theorem parseHexPair_hexByte (c1 c2 : Char) (n : ℕ) (h : parseHexPair c1 c2 = .ok n) :
    n ≤ 255 ∧ hexByte ((n : ℕ) : ℤ) = String.mk [asciiLowerChar c1, asciiLowerChar c2] ∧
      (c1 == '#') = false := by
  rw [parseHexPair] at h
  cases hv1 : hexDigitVal c1 with
  | error e => rw [hv1] at h; exact absurd h (by simp [Bind.bind, Except.bind])
  | ok n1 =>
    cases hv2 : hexDigitVal c2 with
    | error e => rw [hv1, hv2] at h; exact absurd h (by simp [Bind.bind, Except.bind])
    | ok n2 =>
      rw [hv1, hv2] at h
      simp only [Bind.bind, Except.bind, Except.ok.injEq] at h
      obtain ⟨hb1, hc1, hh1⟩ := hexDigitVal_lower c1 n1 hv1
      obtain ⟨hb2, hc2, _⟩ := hexDigitVal_lower c2 n2 hv2
      subst h
      refine ⟨by omega, ?_, hh1⟩
      rw [hexByte]
      rw [Int.toNat_natCast]
      have hd : (16 * n1 + n2) / 16 = n1 := by omega
      have hm : (16 * n1 + n2) % 16 = n2 := by omega
      rw [hd, hm, hc1, hc2]

/-- C4 (amended): the hex round-trip holds exactly for 6-digit inputs *with*
a leading `#`, up to lowercasing: `from_hex(s).rgb.to_hex() == normalizeCase s`
(`Color` itself has no `to_hex`; serialization is `RGB.to_hex` on the `rgb`
field, which always prepends `#`, emits lowercase, and never emits alpha —
hence the failures for 8-digit and `#`-less inputs in the counterexample). -/
theorem c4_roundtrip_six_digit (c1 c2 c3 c4 c5 c6 : Char)
    (h1 : ∃ n, hexDigitVal c1 = .ok n) (h2 : ∃ n, hexDigitVal c2 = .ok n)
    (h3 : ∃ n, hexDigitVal c3 = .ok n) (h4 : ∃ n, hexDigitVal c4 = .ok n)
    (h5 : ∃ n, hexDigitVal c5 = .ok n) (h6 : ∃ n, hexDigitVal c6 = .ok n) :
    (Color.from_hex (String.mk ['#', c1, c2, c3, c4, c5, c6]) "").map
      (fun c => RGB.to_hex c.rgb) =
      .ok (normalizeCase (String.mk ['#', c1, c2, c3, c4, c5, c6])) := by
  obtain ⟨n1, hn1⟩ := h1
  obtain ⟨n2, hn2⟩ := h2
  obtain ⟨n3, hn3⟩ := h3
  obtain ⟨n4, hn4⟩ := h4
  obtain ⟨n5, hn5⟩ := h5
  obtain ⟨n6, hn6⟩ := h6
  have hp12 : parseHexPair c1 c2 = .ok (16 * n1 + n2) := by
    rw [parseHexPair, hn1, hn2]
    rfl
  have hp34 : parseHexPair c3 c4 = .ok (16 * n3 + n4) := by
    rw [parseHexPair, hn3, hn4]
    rfl
  have hp56 : parseHexPair c5 c6 = .ok (16 * n5 + n6) := by
    rw [parseHexPair, hn5, hn6]
    rfl
  obtain ⟨hb12, hx12, hh1⟩ := parseHexPair_hexByte c1 c2 _ hp12
  obtain ⟨hb34, hx34, _⟩ := parseHexPair_hexByte c3 c4 _ hp34
  obtain ⟨hb56, hx56, _⟩ := parseHexPair_hexByte c5 c6 _ hp56
  have hdw : List.dropWhile (fun c => c == '#') ['#', c1, c2, c3, c4, c5, c6] =
      [c1, c2, c3, c4, c5, c6] := by
    simp [List.dropWhile, hh1]
  obtain ⟨cr, hcr, hcrgb⟩ := from_rgb_ok ((16 * n1 + n2 : ℕ) : ℤ) ((16 * n3 + n4 : ℕ) : ℤ)
    ((16 * n5 + n6 : ℕ) : ℤ) "" 1 (Int.ofNat_nonneg _) (Int.ofNat_nonneg _) (Int.ofNat_nonneg _)
  rw [Color.from_hex]
  have htl : (String.mk ['#', c1, c2, c3, c4, c5, c6]).toList =
      ['#', c1, c2, c3, c4, c5, c6] := rfl
  rw [htl, hdw]
  simp only [hp12, hp34, hp56, Bind.bind, Except.bind]
  rw [hcr]
  simp only [Except.map]
  rw [hcrgb]
  have hmk : RGB.make ((16 * n1 + n2 : ℕ) : ℤ) ((16 * n3 + n4 : ℕ) : ℤ) ((16 * n5 + n6 : ℕ) : ℤ) 1 =
      ⟨((16 * n1 + n2 : ℕ) : ℤ), ((16 * n3 + n4 : ℕ) : ℤ), ((16 * n5 + n6 : ℕ) : ℤ), 1⟩ := by
    simp only [RGB.make, RGB.mk.injEq]
    refine ⟨by omega, by omega, by omega, by norm_num⟩
  rw [hmk, RGB.to_hex]
  simp only []
  rw [hx12, hx34, hx56]
  rw [normalizeCase]
  have hlow : asciiLowerChar '#' = '#' := rfl
  simp only [String.toList, List.map, hlow]
  rfl

/-- C4 counterexample: the round-trip does not return the case-normalized
input for every valid hex string: an 8-digit `RRGGBBAA` input loses its alpha
suffix, and an input without `#` gains one. -/
theorem c4_counterexample_not_all_valid_hex :
    ((Color.from_hex "AABBCC80" "").map (fun c => RGB.to_hex c.rgb) = .ok "#aabbcc" ∧
      normalizeCase "AABBCC80" = "aabbcc80" ∧ ("#aabbcc" : String) ≠ "aabbcc80") ∧
    ((Color.from_hex "aabbcc" "").map (fun c => RGB.to_hex c.rgb) = .ok "#aabbcc" ∧
      normalizeCase "aabbcc" = "aabbcc" ∧ ("#aabbcc" : String) ≠ "aabbcc") := by
  refine ⟨⟨by decide, by decide, by decide⟩, ⟨by decide, by decide, by decide⟩⟩

/-- C4 witness: the round-trip at the concrete mixed-case input `#AaBbC0`. -/
theorem c4_witness :
    (Color.from_hex (String.mk ['#', 'A', 'a', 'B', 'b', 'C', '0']) "").map
      (fun c => RGB.to_hex c.rgb) =
      .ok (normalizeCase (String.mk ['#', 'A', 'a', 'B', 'b', 'C', '0'])) :=
  c4_roundtrip_six_digit 'A' 'a' 'B' 'b' 'C' '0'
    ⟨10, by decide⟩ ⟨10, by decide⟩ ⟨11, by decide⟩ ⟨11, by decide⟩ ⟨12, by decide⟩
    ⟨0, by decide⟩
